import Mathlib

/-!
The overseerbot command extractor, cooldown tracker and send gate.

A shallow embedding of `main.go`.  Go strings are byte sequences, the wall
clock read by `time.Now()` is an explicit argument, the two package-level
maps are threaded through as an explicit state, and the calls into the
messaging client and the status API are recorded as effects or taken as
inputs.
-/

namespace Overseerbot

/-! ## Go strings and the parts of `unicode/utf8`, `unicode` and `strings` that the source calls -/

/-- A Go string is an immutable byte sequence; every element is a byte value below 256. -/
abbrev GoString := List Nat

/-- UTF-8 encoding of one code point, as the Go compiler encodes the characters of a string literal. -/
def encodeRune (r : Nat) : GoString :=
  if r < 0x80 then [r]
  else if r < 0x800 then [0xC0 + r / 64, 0x80 + r % 64]
  else if r < 0x10000 then [0xE0 + r / 4096, 0x80 + (r / 64) % 64, 0x80 + r % 64]
  else [0xF0 + r / 262144, 0x80 + (r / 4096) % 64, 0x80 + (r / 64) % 64, 0x80 + r % 64]

/-- The bytes of a Go string literal written with the given characters. -/
def goStr (s : String) : GoString :=
  s.toList.flatMap (fun c => encodeRune c.toNat)

/-- Constant `utf8.RuneError`, the replacement code point U+FFFD. -/
def RuneError : Nat := 0xFFFD

/-- Constant `utf8.RuneSelf`: bytes below it are single-byte code points. -/
def RuneSelf : Nat := 0x80

/-- Continuation byte test: the byte lies in `0x80..0xBF`. -/
def isCont (b : Nat) : Bool := decide (0x80 ≤ b ∧ b ≤ 0xBF)

/-- Function `utf8.DecodeRuneInString`: the first code point of `s` and its width in bytes;
an empty string gives `(RuneError, 0)` and an invalid encoding `(RuneError, 1)`. -/
def DecodeRuneInString (s : GoString) : Nat × Nat :=
  match s with
  | [] => (RuneError, 0)
  | b0 :: rest =>
    if b0 < RuneSelf then (b0, 1)
    else if b0 < 0xC2 then (RuneError, 1)
    else if b0 ≤ 0xDF then
      match rest with
      | b1 :: _ =>
        if isCont b1 then ((b0 % 32) * 64 + b1 % 64, 2) else (RuneError, 1)
      | [] => (RuneError, 1)
    else if b0 ≤ 0xEF then
      match rest with
      | b1 :: b2 :: _ =>
        let lo := if b0 = 0xE0 then 0xA0 else 0x80
        let hi := if b0 = 0xED then 0x9F else 0xBF
        if decide (lo ≤ b1 ∧ b1 ≤ hi) && isCont b2 then
          ((b0 % 16) * 4096 + (b1 % 64) * 64 + b2 % 64, 3)
        else (RuneError, 1)
      | _ => (RuneError, 1)
    else if b0 ≤ 0xF4 then
      match rest with
      | b1 :: b2 :: b3 :: _ =>
        let lo := if b0 = 0xF0 then 0x90 else 0x80
        let hi := if b0 = 0xF4 then 0x8F else 0xBF
        if decide (lo ≤ b1 ∧ b1 ≤ hi) && isCont b2 && isCont b3 then
          ((b0 % 8) * 262144 + (b1 % 64) * 4096 + (b2 % 64) * 64 + b3 % 64, 4)
        else (RuneError, 1)
      | _ => (RuneError, 1)
    else (RuneError, 1)

/-- Function `utf8.RuneStart`: the byte is not a continuation byte. -/
def RuneStart (b : Nat) : Bool := decide (b / 64 % 4 ≠ 2)

/-- The backwards scan of `utf8.DecodeLastRuneInString`: from `start` down to `lim`,
stop at the first byte that can start a code point. -/
def scanBack (s : GoString) (lim : Int) : Nat → Int → Int
  | 0, start => start
  | fuel + 1, start =>
    if start ≥ lim then
      if RuneStart (s.getD start.toNat 0) then start else scanBack s lim fuel (start - 1)
    else start

/-- Function `utf8.DecodeLastRuneInString`: the last code point of `s` and its width. -/
def DecodeLastRuneInString (s : GoString) : Nat × Nat :=
  let endIdx : Int := s.length
  if endIdx = 0 then (RuneError, 0)
  else
    let r := s.getD (endIdx - 1).toNat 0
    if r < RuneSelf then (r, 1)
    else
      let lim : Int := if endIdx - 4 < 0 then 0 else endIdx - 4
      let start := scanBack s lim 4 (endIdx - 2)
      let start := if start < 0 then 0 else start
      let (r, size) := DecodeRuneInString ((s.take endIdx.toNat).drop start.toNat)
      if start + size ≠ endIdx then (RuneError, 1) else (r, size)

/-- Function `unicode.IsSpace`: the code points with the Unicode White_Space property. -/
def IsSpace (r : Nat) : Bool :=
  if r ≤ 0xFF then
    decide (r = 0x09 ∨ r = 0x0A ∨ r = 0x0B ∨ r = 0x0C ∨ r = 0x0D ∨ r = 0x20 ∨ r = 0x85 ∨ r = 0xA0)
  else
    decide (r = 0x1680 ∨ (0x2000 ≤ r ∧ r ≤ 0x200A) ∨ r = 0x2028 ∨ r = 0x2029 ∨ r = 0x202F
      ∨ r = 0x205F ∨ r = 0x3000)

/-- The table `asciiSpace` of package `strings`: tab, newline, vertical tab, form feed,
carriage return and space. -/
def asciiSpace (c : Nat) : Bool :=
  decide (c = 0x09 ∨ c = 0x0A ∨ c = 0x0B ∨ c = 0x0C ∨ c = 0x0D ∨ c = 0x20)

/-- The loop of `strings.TrimLeftFunc`: drop leading code points while `f` holds. -/
def trimLeftLoop (f : Nat → Bool) : Nat → GoString → GoString
  | 0, _ => []
  | fuel + 1, s =>
    match s with
    | [] => []
    | _ :: _ =>
      let (r, w) := DecodeRuneInString s
      if f r then trimLeftLoop f fuel (s.drop w) else s

/-- Function `strings.TrimLeftFunc`. -/
def TrimLeftFunc (s : GoString) (f : Nat → Bool) : GoString :=
  trimLeftLoop f (s.length + 1) s

/-- Function `strings.lastIndexFunc` with `truth = false`: the byte index of the last code
point on which `f` fails, or `-1`; the argument `i` is the loop variable. -/
def lastIndexFunc (s : GoString) (f : Nat → Bool) : Nat → Nat → Int
  | 0, _ => -1
  | fuel + 1, i =>
    if i > 0 then
      let (r, size) := DecodeLastRuneInString (s.take i)
      if f r = false then ((i - size : Nat) : Int) else lastIndexFunc s f fuel (i - size)
    else -1

/-- Function `strings.TrimRightFunc`. -/
def TrimRightFunc (s : GoString) (f : Nat → Bool) : GoString :=
  let i := lastIndexFunc s f (s.length + 1) s.length
  if i ≥ 0 ∧ s.getD i.toNat 0 ≥ RuneSelf then
    let (_, wid) := DecodeRuneInString (s.drop i.toNat)
    s.take (i.toNat + wid)
  else s.take (i + 1).toNat

/-- Function `strings.TrimFunc`. -/
def TrimFunc (s : GoString) (f : Nat → Bool) : GoString :=
  TrimRightFunc (TrimLeftFunc s f) f

/-- Second loop of `strings.TrimSpace` on `t = s[start:]`; the argument is `stop - start`. -/
def trimSpaceStop (t : GoString) : Nat → GoString
  | 0 => []
  | stop + 1 =>
    let c := t.getD stop 0
    if c ≥ RuneSelf then TrimRightFunc (t.take (stop + 1)) IsSpace
    else if asciiSpace c then trimSpaceStop t stop
    else t.take (stop + 1)

/-- Function `strings.TrimSpace`: the first loop walks over leading ASCII white space and
hands over to the Unicode-aware functions at the first non-ASCII byte. -/
def TrimSpace : GoString → GoString
  | [] => []
  | c :: cs =>
    if c ≥ RuneSelf then TrimFunc (c :: cs) IsSpace
    else if asciiSpace c then TrimSpace cs
    else trimSpaceStop (c :: cs) (c :: cs).length

/-- Function `strings.HasPrefix`. -/
def HasPrefix (s pre : GoString) : Bool :=
  decide (pre.length ≤ s.length ∧ s.take pre.length = pre)

/-- Function `strings.Index`: the first byte index at which `sep` occurs in `s`; `none`
stands for the result `-1`. -/
def indexOf (s sep : GoString) : Option Nat :=
  if HasPrefix s sep then some 0
  else
    match s with
    | [] => none
    | _ :: t => (indexOf t sep).map (· + 1)

/-- The loop of `utf8.RuneCountInString`; an invalid byte counts as one code point. -/
def runeCountLoop : Nat → GoString → Nat
  | 0, _ => 0
  | fuel + 1, s =>
    match s with
    | [] => 0
    | _ :: _ => 1 + runeCountLoop fuel (s.drop (DecodeRuneInString s).2)

/-- Function `utf8.RuneCountInString`. -/
def RuneCountInString (s : GoString) : Nat := runeCountLoop s.length s

/-- The loop of `strings.Count` for a separator of at least one byte. -/
def countLoop (sep : GoString) : Nat → GoString → Nat
  | 0, _ => 0
  | fuel + 1, s =>
    match indexOf s sep with
    | none => 0
    | some i => 1 + countLoop sep fuel (s.drop (i + sep.length))

/-- Function `strings.Count`: the number of non-overlapping instances of `sep` in `s`. -/
def Count (s sep : GoString) : Nat :=
  if sep.length = 0 then RuneCountInString s + 1 else countLoop sep (s.length + 1) s

/-- The loop of `strings.explode`: one string per code point for the first `k` pieces. -/
def explodeLoop : Nat → GoString → List GoString
  | 0, s => [s]
  | k + 1, s =>
    let size := (DecodeRuneInString s).2
    s.take size :: explodeLoop k (s.drop size)

/-- Function `strings.explode`: split into code points, at most `n` pieces. -/
def explode (s : GoString) (n : Int) : List GoString :=
  let l : Int := RuneCountInString s
  let n := if n < 0 ∨ n > l then l else n
  if n > 0 then explodeLoop (n - 1).toNat s else []

/-- The loop of `strings.genSplit`: cut at the next separator at most `k` more times. -/
def genSplitLoop (sep : GoString) (sepSave : Nat) : Nat → GoString → List GoString
  | 0, s => [s]
  | k + 1, s =>
    match indexOf s sep with
    | none => [s]
    | some m => s.take (m + sepSave) :: genSplitLoop sep sepSave k (s.drop (m + sep.length))

/-- Function `strings.genSplit`. -/
def genSplit (s sep : GoString) (sepSave : Nat) (n : Int) : List GoString :=
  if n = 0 then []
  else if sep = [] then explode s n
  else
    let n : Int := if n < 0 then Count s sep + 1 else n
    let n : Int := if n > s.length + 1 then s.length + 1 else n
    genSplitLoop sep sepSave (n - 1).toNat s

/-- Function `strings.SplitN`. -/
def SplitN (s sep : GoString) (n : Int) : List GoString := genSplit s sep 0 n

/-! ## The command extractor -/

/-- Function `extractCommand` of `main.go`.  The index expression `parts[0]` reads the head
of the slice returned by `SplitN`, which is never empty here (`SplitN_two_ne_nil`). -/
def extractCommand (text : GoString) : GoString :=
  let text := TrimSpace text
  if HasPrefix text (goStr "/") then
    let parts := SplitN text (goStr " ") 2
    parts.headD []
  else if text.length > 20 then text.take 20
  else text

/-! ## Time -/

/-- A reading of the clock in nanoseconds; `time.Now()` carries a monotonic reading and
`Time.Sub` of two such values subtracts the monotonic readings. -/
abbrev Time := Int

/-- A `time.Duration`: a signed 64-bit count of nanoseconds. -/
abbrev Duration := Int

/-- Constant `time.Second`. -/
def Second : Duration := 1000000000

/-- The largest `time.Duration`. -/
def maxDuration : Duration := 9223372036854775807

/-- The smallest `time.Duration`. -/
def minDuration : Duration := -9223372036854775808

/-- Method `Time.Sub`: the duration `t - u`, replaced by the largest (smallest) duration
when the difference does not fit. -/
def Time.Sub (t u : Time) : Duration :=
  if t - u > maxDuration then maxDuration
  else if t - u < minDuration then minDuration
  else t - u

/-! ## The cooldown tracker -/

/-- A Go map keyed by strings; a key that was never stored reads as absent. -/
abbrev GoMap (V : Type) := GoString → Option V

/-- The map returned by `make(map[string]V)`. -/
def emptyMap {V : Type} : GoMap V := fun _ => none

/-- The map after the assignment `m[k] = v`. -/
def mapSet {V : Type} (m : GoMap V) (k : GoString) (v : V) : GoMap V :=
  fun k2 => if k2 = k then some v else m k2

/-- The package-level variables `userCooldowns` and `notifiedCooldowns`. -/
structure CooldownState where
  userCooldowns : GoMap (GoMap Time)
  notifiedCooldowns : GoMap (GoMap Bool)

/-- The state at process start: both maps are empty. -/
def initState : CooldownState := ⟨emptyMap, emptyMap⟩

/-- The record `userCooldowns[jid][cmd]` with its presence: `none` when the pair has no
prior record. -/
def lastUsedAt (st : CooldownState) (jid cmd : GoString) : Option Time :=
  (st.userCooldowns jid).bind (fun m => m cmd)

/-- The stored entry `notifiedCooldowns[jid][cmd]` with its presence. -/
def notifiedEntry (st : CooldownState) (jid cmd : GoString) : Option Bool :=
  (st.notifiedCooldowns jid).bind (fun m => m cmd)

/-- The value the expression `notifiedCooldowns[jid][cmd]` reads: `false` when absent. -/
def notified (st : CooldownState) (jid cmd : GoString) : Bool :=
  (notifiedEntry st jid cmd).getD false

/-- The initialisation step `if _, ok := m[jid]; !ok { m[jid] = make(...) }`. -/
def initInner {V : Type} (m : GoMap (GoMap V)) (jid : GoString) : GoMap (GoMap V) :=
  match m jid with
  | some _ => m
  | none => mapSet m jid emptyMap

/-- Function `tooSoon` of `main.go`; `now` is the value of `time.Now()`.  The result is the
pair `(cooldown, notify)` and the state of the two maps afterwards.  The condition
`exists && now.Sub(lastUsed) < 30*time.Second` is the `some` branch followed by the test. -/
def tooSoon (st : CooldownState) (now : Time) (jid cmd : GoString) :
    (Bool × Bool) × CooldownState :=
  let uc : GoMap (GoMap Time) := initInner st.userCooldowns jid
  let nc : GoMap (GoMap Bool) := initInner st.notifiedCooldowns jid
  let ucJid : GoMap Time := (uc jid).getD emptyMap
  let ncJid : GoMap Bool := (nc jid).getD emptyMap
  let newWindow : (Bool × Bool) × CooldownState :=
    ((false, false), ⟨mapSet uc jid (mapSet ucJid cmd now), mapSet nc jid (mapSet ncJid cmd false)⟩)
  match ucJid cmd with
  | some lastUsed =>
    if Time.Sub now lastUsed < 30 * Second then
      let alreadyNotified := (ncJid cmd).getD false
      if !alreadyNotified then
        ((true, true), ⟨uc, mapSet nc jid (mapSet ncJid cmd true)⟩)
      else ((true, false), ⟨uc, nc⟩)
    else newWindow
  | none => newWindow

/-- Decision Admit: `cooldown = false`, `notify = false`. -/
def Admit : Bool × Bool := (false, false)

/-- Decision SuppressWithNotice: `cooldown = true`, `notify = true`. -/
def SuppressWithNotice : Bool × Bool := (true, true)

/-- Decision SuppressSilently: `cooldown = true`, `notify = false`. -/
def SuppressSilently : Bool × Bool := (true, false)

/-- Successive `tooSoon` calls for one pair at the given clock readings: the decisions in
call order and the final state. -/
def evalSeq (jid cmd : GoString) : CooldownState → List Time → List (Bool × Bool) × CooldownState
  | st, [] => ([], st)
  | st, t :: ts =>
    let r := tooSoon st t jid cmd
    let rest := evalSeq jid cmd r.2 ts
    (r.1 :: rest.1, rest.2)

/-! ## Overlapping calls of the tracker -/

/-- What one call of `tooSoon` has read before it decides: the result of
`lastUsed, exists := userCooldowns[jid][cmd]` and of `notifiedCooldowns[jid][cmd]`. -/
structure Snapshot where
  lastUsed : Option Time
  alreadyNotified : Bool

/-- First half of `tooSoon`: the two initialisation steps and the two reads. -/
def readStep (st : CooldownState) (jid cmd : GoString) : Snapshot × CooldownState :=
  let uc : GoMap (GoMap Time) := initInner st.userCooldowns jid
  let nc : GoMap (GoMap Bool) := initInner st.notifiedCooldowns jid
  let ucJid : GoMap Time := (uc jid).getD emptyMap
  let ncJid : GoMap Bool := (nc jid).getD emptyMap
  (⟨ucJid cmd, (ncJid cmd).getD false⟩, ⟨uc, nc⟩)

/-- Second half of `tooSoon`: the tests on the values read earlier and the writes, which go
to the maps as they are when this half runs. -/
def writeStep (snap : Snapshot) (now : Time) (st : CooldownState) (jid cmd : GoString) :
    (Bool × Bool) × CooldownState :=
  let uc : GoMap (GoMap Time) := st.userCooldowns
  let nc : GoMap (GoMap Bool) := st.notifiedCooldowns
  let ucJid : GoMap Time := (uc jid).getD emptyMap
  let ncJid : GoMap Bool := (nc jid).getD emptyMap
  let newWindow : (Bool × Bool) × CooldownState :=
    ((false, false), ⟨mapSet uc jid (mapSet ucJid cmd now), mapSet nc jid (mapSet ncJid cmd false)⟩)
  match snap.lastUsed with
  | some lastUsed =>
    if Time.Sub now lastUsed < 30 * Second then
      if !snap.alreadyNotified then
        ((true, true), ⟨uc, mapSet nc jid (mapSet ncJid cmd true)⟩)
      else ((true, false), ⟨uc, nc⟩)
    else newWindow
  | none => newWindow

/-- Two overlapping calls of `tooSoon` for one pair, scheduled as read of the first, read of
the second, decide and write of the first, decide and write of the second: the two
decisions and the final state. -/
def overlapped (st : CooldownState) (now1 now2 : Time) (jid cmd : GoString) :
    (Bool × Bool) × (Bool × Bool) × CooldownState :=
  let r1 := readStep st jid cmd
  let r2 := readStep r1.2 jid cmd
  let w1 := writeStep r1.1 now1 r2.2 jid cmd
  let w2 := writeStep r2.1 now2 w1.2 jid cmd
  (w1.1, w2.1, w2.2)

/-! ## The send gate and the dispatcher -/

/-- What a call leaves behind outside the two maps: the messages handed to
`client.SendMessage` as (chat, text), and the lines printed with `fmt.Println`. -/
structure Effects where
  sent : List (GoString × GoString)
  printed : List GoString
deriving DecidableEq

/-- The fields of `*events.Message` that the source reads. -/
structure Event where
  Sender : GoString
  Chat : GoString
  Conversation : GoString
  ExtendedText : Option GoString

/-- Function `sendText` of `main.go`; `allow` is the answer of `globalLimiter.Allow()` and
`now` the clock reading taken inside `tooSoon`. -/
def sendText (allow : Bool) (now : Time) (v : Event) (text : GoString) (st : CooldownState) :
    CooldownState × Effects :=
  let jid := v.Sender
  if !allow then (st, ⟨[], [goStr "⏳ Rate limit (globaal)"]⟩)
  else
    let cmd := extractCommand text
    let r := tooSoon st now jid cmd
    if r.1.1 then
      if r.1.2 then
        (r.2, ⟨[(v.Chat, goStr "⏱️ Rustig aan! Je moet even wachten tot je dit commando weer kan gebruiken.")], []⟩)
      else (r.2, ⟨[], []⟩)
    else (r.2, ⟨[(v.Chat, text)], []⟩)

/-- Struct `PalworldMetrics`; `F` stands for `float64`. -/
structure PalworldMetrics (F : Type) where
  ServerFPS : Int
  CurrentPlayerNum : Int
  ServerFrameTime : F
  MaxPlayerNum : Int
  Uptime : Int
  Days : Int

/-- Struct `Player`; `F` stands for `float64`. -/
structure Player (F : Type) where
  Name : GoString
  AccountName : GoString
  PlayerID : GoString
  UserID : GoString
  IP : GoString
  Ping : F
  LocationX : F
  LocationY : F
  Level : Int

/-- The renderings of the `fmt.Sprintf` verbs used by the source: `%d`, `%.1f` and `%.2f`
(the verb `%s` copies its string argument). -/
structure Verbs (F : Type) where
  d : Int → GoString
  f1 : F → GoString
  f2 : F → GoString

/-- The `fmt.Sprintf` call that builds the `/metrics` reply. -/
def metricsResponse {F : Type} (vb : Verbs F) (m : PalworldMetrics F) : GoString :=
  goStr "📊 *Palworld Serverstatus*\n\n👥 Spelers: " ++ vb.d m.CurrentPlayerNum ++ goStr "/"
    ++ vb.d m.MaxPlayerNum ++ goStr "\n🎮 FPS: " ++ vb.d m.ServerFPS
    ++ goStr "\n🕒 Uptime: " ++ vb.d m.Uptime ++ goStr " seconden\n📅 In-game dagen: "
    ++ vb.d m.Days ++ goStr "\n⏱️ Frame time: " ++ vb.f2 m.ServerFrameTime ++ goStr " ms"

/-- The `fmt.Sprintf` call that builds the entry of one player. -/
def playerEntry {F : Type} (vb : Verbs F) (p : Player F) : GoString :=
  goStr "👤 *" ++ p.Name ++ goStr "* (" ++ p.AccountName ++ goStr ")\n🆔 \x60" ++ p.UserID
    ++ goStr "\x60\n📍 \x60X=" ++ vb.f1 p.LocationX ++ goStr ", Y=" ++ vb.f1 p.LocationY
    ++ goStr "\x60\n📶 Ping: " ++ vb.f2 p.Ping ++ goStr " ms\n🧬 Level: " ++ vb.d p.Level

/-- The truncation notice written after the tenth entry. -/
def truncationNotice : GoString := goStr "... (max 10 weergegeven)"

/-- The heading written before the entries. -/
def playersHeader : GoString := goStr "🧑‍💻 *Online spelers:*\n\n"

/-- The `for i, p := range players.Players` loop of `handleMessage`: `n` is
`len(players.Players)`, `i` the index of the head of the remaining players and `acc` the
content of the string builder. -/
def playersLoop {F : Type} (vb : Verbs F) (n : Int) : Int → List (Player F) → GoString → GoString
  | _, [], acc => acc
  | i, p :: rest, acc =>
    let acc := acc ++ playerEntry vb p
    let acc := if i < n - 1 ∧ i < 9 then acc ++ goStr "\n\n" else acc
    if i ≥ 9 then acc ++ truncationNotice
    else playersLoop vb n (i + 1) rest acc

/-- The text of the `/players` reply for a list of players that is not empty. -/
def playersList {F : Type} (vb : Verbs F) (players : List (Player F)) : GoString :=
  playersLoop vb players.length 0 players playersHeader

/-- What one call of `handleMessage` gets from outside: the verbs of `fmt`, the results of
`fetchMetrics` and `fetchPlayers` (`none` for `err != nil`), the answer of the global
limiter and the clock reading. -/
structure World (F : Type) where
  verbs : Verbs F
  fetchMetrics : Option (PalworldMetrics F)
  fetchPlayers : Option (List (Player F))
  allow : Bool
  now : Time

/-- Function `handleMessage` of `main.go`. -/
def handleMessage {F : Type} (w : World F) (v : Event) (st : CooldownState) :
    CooldownState × Effects :=
  let msg : GoString :=
    if v.Conversation ≠ [] then v.Conversation
    else
      match v.ExtendedText with
      | some t => t
      | none => goStr "[onbekend berichttype]"
  if TrimSpace msg = goStr "/metrics" then
    match w.fetchMetrics with
    | none => sendText w.allow w.now v (goStr "❌ Fout bij ophalen van serverstatus.") st
    | some metrics => sendText w.allow w.now v (metricsResponse w.verbs metrics) st
  else if TrimSpace msg = goStr "/players" then
    match w.fetchPlayers with
    | none => sendText w.allow w.now v (goStr "❌ Fout bij ophalen van spelerslijst.") st
    | some players =>
      if players.length = 0 then sendText w.allow w.now v (goStr "🕵️ Geen spelers online.") st
      else sendText w.allow w.now v (playersList w.verbs players) st
  else (st, ⟨[], []⟩)

/-! ## Reading the tracker, and the scenarios used below -/

/-- The inner map of `jid` that `tooSoon` works on after its two initialisation steps. -/
def innerOf {V : Type} (m : GoMap (GoMap V)) (jid : GoString) : GoMap V := (m jid).getD emptyMap

/-- The decision of `tooSoon` as a function of the record of the pair and the clock. -/
def decide30 (last : Option Int) (flag : Bool) (now : Int) : Bool × Bool :=
  match last with
  | some lastUsed =>
    if now - lastUsed < 30 * Second then
      if flag then SuppressSilently else SuppressWithNotice
    else Admit
  | none => Admit

/-- The decisions of a run of calls that all fall inside one window. -/
def windowDecisions (flag : Bool) : List Int → List (Bool × Bool)
  | [] => []
  | _ :: rest =>
    (if flag then SuppressSilently else SuppressWithNotice)
      :: List.replicate rest.length SuppressSilently

/-- A world in which both status queries fail and the global limiter grants a token. -/
def failingWorld (now : Time) : World Unit :=
  ⟨⟨fun _ => [], fun _ => [], fun _ => []⟩, none, none, true, now⟩

/-- A plain text message with the given text, sent by one fixed sender in a private chat. -/
def requestOf (text : String) : Event :=
  ⟨goStr "31612345678@s.whatsapp.net", goStr "31612345678@s.whatsapp.net", goStr text, none⟩

/-! ## Lemmas on the clock, the maps and `tooSoon` -/

theorem sub_lt_window (t u : Int) : Time.Sub t u < 30 * Second ↔ t - u < 30 * Second := by
  have key : ∀ a : Int, (if a > 9223372036854775807 then (9223372036854775807 : Int)
      else if a < -9223372036854775808 then -9223372036854775808 else a) < 30 * 1000000000
        ↔ a < 30 * 1000000000 := by
    intro a
    split_ifs <;> omega
  exact key (t - u)

theorem mapSet_same {V : Type} (m : GoMap V) (k : GoString) (v : V) : mapSet m k v k = some v := by
  simp [mapSet]

theorem mapSet_other {V : Type} (m : GoMap V) (k k2 : GoString) (v : V) (h : k2 ≠ k) :
    mapSet m k v k2 = m k2 := by
  simp [mapSet, h]

theorem mapSet_stored {V : Type} (m : GoMap V) (k : GoString) (v : V) (h : m k = some v) :
    mapSet m k v = m := by
  funext k2
  by_cases hk : k2 = k
  · subst hk; simp [mapSet, h]
  · simp [mapSet, hk]

theorem mapSet_twice {V : Type} (m : GoMap V) (k : GoString) (v w : V) :
    mapSet (mapSet m k v) k w = mapSet m k w := by
  funext k2
  by_cases hk : k2 = k <;> simp [mapSet, hk]

theorem initInner_eq {V : Type} (m : GoMap (GoMap V)) (jid : GoString) :
    initInner m jid = mapSet m jid (innerOf m jid) := by
  unfold initInner innerOf
  rcases hu : m jid with _ | um
  · simp
  · simp [mapSet_stored _ _ _ hu]

/-- The state after `tooSoon`, written with the initialised inner maps. -/
theorem tooSoon_eq (st : CooldownState) (now : Int) (jid cmd : GoString) :
    tooSoon st now jid cmd =
      (decide30 (lastUsedAt st jid cmd) (notified st jid cmd) now,
       if decide30 (lastUsedAt st jid cmd) (notified st jid cmd) now = Admit then
         ⟨mapSet st.userCooldowns jid (mapSet (innerOf st.userCooldowns jid) cmd now),
          mapSet st.notifiedCooldowns jid (mapSet (innerOf st.notifiedCooldowns jid) cmd false)⟩
       else
         ⟨mapSet st.userCooldowns jid (innerOf st.userCooldowns jid),
          mapSet st.notifiedCooldowns jid (mapSet (innerOf st.notifiedCooldowns jid) cmd true)⟩) := by
  have hL : lastUsedAt st jid cmd = innerOf st.userCooldowns jid cmd := by
    unfold lastUsedAt innerOf
    cases st.userCooldowns jid <;> simp [emptyMap]
  have hN : notified st jid cmd = (innerOf st.notifiedCooldowns jid cmd).getD false := by
    unfold notified notifiedEntry innerOf
    cases st.notifiedCooldowns jid <;> simp [emptyMap]
  unfold tooSoon
  simp only [initInner_eq, mapSet_same, Option.getD_some, mapSet_twice]
  rw [hL, hN]
  rcases hl : innerOf st.userCooldowns jid cmd with _ | l
  · simp [decide30, Admit]
  · by_cases hw : now - l < 30 * Second
    · cases hf : (innerOf st.notifiedCooldowns jid cmd).getD false
      · simp [decide30, hw, hf, sub_lt_window, Admit, SuppressWithNotice]
      · have hs : mapSet (innerOf st.notifiedCooldowns jid) cmd true
            = innerOf st.notifiedCooldowns jid := by
          apply mapSet_stored
          cases hx : innerOf st.notifiedCooldowns jid cmd <;> simp_all
        simp [decide30, hw, hf, sub_lt_window, Admit, SuppressSilently, hs]
    · simp [decide30, hw, sub_lt_window, Admit]


theorem lastUsedAt_eq_inner (st : CooldownState) (jid cmd : GoString) :
    lastUsedAt st jid cmd = innerOf st.userCooldowns jid cmd := by
  unfold lastUsedAt innerOf
  cases st.userCooldowns jid <;> simp [emptyMap]

theorem notifiedEntry_eq_inner (st : CooldownState) (jid cmd : GoString) :
    notifiedEntry st jid cmd = innerOf st.notifiedCooldowns jid cmd := by
  unfold notifiedEntry innerOf
  cases st.notifiedCooldowns jid <;> simp [emptyMap]

theorem inner_mapSet {V : Type} (m : GoMap (GoMap V)) (jid j : GoString) (im : GoMap V) :
    innerOf (mapSet m jid im) j = if j = jid then im else innerOf m j := by
  unfold innerOf mapSet
  split_ifs <;> simp

theorem tooSoon_fst (st : CooldownState) (now : Int) (jid cmd : GoString) :
    (tooSoon st now jid cmd).1 = decide30 (lastUsedAt st jid cmd) (notified st jid cmd) now := by
  rw [tooSoon_eq]

/-- The record of any pair after a call: only the called pair changes, and only on Admit. -/
theorem lastUsedAt_after (st : CooldownState) (now : Int) (jid cmd j c : GoString) :
    lastUsedAt (tooSoon st now jid cmd).2 j c =
      if j = jid ∧ c = cmd ∧ (tooSoon st now jid cmd).1 = Admit then some now
      else lastUsedAt st j c := by
  rw [tooSoon_eq]
  simp only [lastUsedAt_eq_inner]
  by_cases hd : decide30 (innerOf st.userCooldowns jid cmd) (notified st jid cmd) now = Admit
  · simp only [hd, if_true, inner_mapSet, and_true]
    by_cases hj : j = jid
    · by_cases hc : c = cmd
      · simp [hj, hc, mapSet]
      · simp [hj, hc, mapSet]
    · simp [hj]
  · simp only [hd, if_false, inner_mapSet, and_false]
    by_cases hj : j = jid
    · simp [hj]
    · simp [hj]

/-- The notice entry of any other pair is untouched. -/
theorem notifiedEntry_after_other (st : CooldownState) (now : Int) (jid cmd j c : GoString)
    (h : ¬ (j = jid ∧ c = cmd)) :
    notifiedEntry (tooSoon st now jid cmd).2 j c = notifiedEntry st j c := by
  rw [tooSoon_eq]
  simp only [notifiedEntry_eq_inner]
  by_cases hj : j = jid
  · have hc : c ≠ cmd := fun hc => h ⟨hj, hc⟩
    split_ifs <;> simp [inner_mapSet, hj, mapSet, hc]
  · split_ifs <;> simp [inner_mapSet, hj]

/-- The notice flag of the called pair afterwards is the returned `cooldown` flag. -/
theorem notified_after_self (st : CooldownState) (now : Int) (jid cmd : GoString) :
    notified (tooSoon st now jid cmd).2 jid cmd = (tooSoon st now jid cmd).1.1 := by
  rw [tooSoon_eq]
  simp only [notified, notifiedEntry_eq_inner]
  by_cases hd : decide30 (lastUsedAt st jid cmd) ((innerOf st.notifiedCooldowns jid cmd).getD false) now = Admit
  · simp [hd, inner_mapSet, mapSet, Admit]
  · simp only [hd, if_false, inner_mapSet, if_true, mapSet]
    simp only [decide30] at hd ⊢
    split at hd
    · split_ifs at hd ⊢ <;> simp_all [SuppressSilently, SuppressWithNotice]
    · exact absurd rfl hd

theorem evalSeq_append (jid cmd : GoString) (a b : List Int) (s : CooldownState) :
    evalSeq jid cmd s (a ++ b) =
      ((evalSeq jid cmd s a).1 ++ (evalSeq jid cmd (evalSeq jid cmd s a).2 b).1,
        (evalSeq jid cmd (evalSeq jid cmd s a).2 b).2) := by
  induction a generalizing s with
  | nil => simp [evalSeq]
  | cons t ts ih => simp [evalSeq, ih]

theorem evalSeq_length (jid cmd : GoString) (ts : List Int) (s : CooldownState) :
    (evalSeq jid cmd s ts).1.length = ts.length := by
  induction ts generalizing s with
  | nil => simp [evalSeq]
  | cons t ts ih => simp [evalSeq, ih]

/-- A call inside the window of the last admitted send is suppressed, with a notice exactly
when none was given yet, and leaves the window where it was. -/
theorem tooSoon_in_window (s : CooldownState) (t0 t : Int) (jid cmd : GoString)
    (h0 : lastUsedAt s jid cmd = some t0) (ht : t < t0 + 30 * Second) :
    (tooSoon s t jid cmd).1 = (if notified s jid cmd then SuppressSilently else SuppressWithNotice)
      ∧ lastUsedAt (tooSoon s t jid cmd).2 jid cmd = some t0
      ∧ notified (tooSoon s t jid cmd).2 jid cmd = true := by
  have hw : t - t0 < 30 * Second := by omega
  have hd : (tooSoon s t jid cmd).1
      = (if notified s jid cmd then SuppressSilently else SuppressWithNotice) := by
    rw [tooSoon_fst, h0]
    simp [decide30, hw]
  refine ⟨hd, ?_, ?_⟩
  · rw [lastUsedAt_after, hd, h0]
    cases notified s jid cmd <;> simp [Admit, SuppressSilently, SuppressWithNotice]
  · rw [notified_after_self, hd]
    cases notified s jid cmd <;> simp [SuppressSilently, SuppressWithNotice]

theorem evalSeq_in_window (t0 : Int) (jid cmd : GoString) (ts : List Int) (s : CooldownState)
    (h0 : lastUsedAt s jid cmd = some t0) (hts : ∀ t ∈ ts, t < t0 + 30 * Second) :
    (evalSeq jid cmd s ts).1 = windowDecisions (notified s jid cmd) ts
      ∧ lastUsedAt (evalSeq jid cmd s ts).2 jid cmd = some t0
      ∧ notified (evalSeq jid cmd s ts).2 jid cmd = (notified s jid cmd || !ts.isEmpty) := by
  induction ts generalizing s with
  | nil => simp [evalSeq, windowDecisions, h0]
  | cons t ts ih =>
    obtain ⟨hd, hl, hn⟩ := tooSoon_in_window s t0 t jid cmd h0 (hts t (by simp))
    obtain ⟨id, il, inn⟩ := ih (tooSoon s t jid cmd).2 hl (fun u hu => hts u (by simp [hu]))
    refine ⟨?_, ?_, ?_⟩
    · simp only [evalSeq, id, hd, hn, windowDecisions]
      cases ts <;> simp [windowDecisions, List.replicate_succ]
    · simpa [evalSeq] using il
    · simp [evalSeq, inn, hn]

theorem fresh_window (st : CooldownState) (t0 : Int) (jid cmd : GoString)
    (hadm : (tooSoon st t0 jid cmd).1 = Admit) :
    lastUsedAt (tooSoon st t0 jid cmd).2 jid cmd = some t0
      ∧ notified (tooSoon st t0 jid cmd).2 jid cmd = false := by
  constructor
  · rw [lastUsedAt_after]; simp [hadm]
  · rw [notified_after_self, hadm]; rfl

/-! ## Lemmas on overlapping calls -/

/-- Run without overlap, the two halves are `tooSoon`. -/
theorem writeStep_readStep (st : CooldownState) (now : Int) (jid cmd : GoString) :
    writeStep (readStep st jid cmd).1 now (readStep st jid cmd).2 jid cmd
      = tooSoon st now jid cmd := by
  rfl

theorem readStep_snapshot (st : CooldownState) (jid cmd : GoString) :
    (readStep st jid cmd).1 = ⟨lastUsedAt st jid cmd, notified st jid cmd⟩ := by
  simp only [readStep, initInner_eq, mapSet_same, Option.getD_some, notified,
    lastUsedAt_eq_inner, notifiedEntry_eq_inner]

theorem readStep_lastUsedAt (st : CooldownState) (jid cmd : GoString) :
    lastUsedAt (readStep st jid cmd).2 jid cmd = lastUsedAt st jid cmd := by
  simp only [readStep, initInner_eq, lastUsedAt_eq_inner, inner_mapSet, if_true]

theorem readStep_notified (st : CooldownState) (jid cmd : GoString) :
    notified (readStep st jid cmd).2 jid cmd = notified st jid cmd := by
  simp only [readStep, initInner_eq, notified, notifiedEntry_eq_inner, inner_mapSet, if_true]

theorem writeStep_fst (snap : Snapshot) (now : Int) (st : CooldownState) (jid cmd : GoString) :
    (writeStep snap now st jid cmd).1 = decide30 snap.lastUsed snap.alreadyNotified now := by
  unfold writeStep decide30
  rcases hl : snap.lastUsed with _ | l
  · rfl
  · by_cases hw : now - l < 30 * Second
    · cases hf : snap.alreadyNotified <;>
        simp [hw, sub_lt_window, SuppressWithNotice, SuppressSilently]
    · simp [hw, sub_lt_window, Admit]

/-! ## Lemmas on `extractCommand` -/

theorem goStr_slash : goStr "/" = [47] := by decide

theorem goStr_space : goStr " " = [32] := by decide

theorem hasPrefix_slash (s : GoString) : HasPrefix s [47] = true ↔ ∃ t, s = 47 :: t := by
  cases s with
  | nil => simp [HasPrefix]
  | cons b t => simp [HasPrefix]

/-- Cutting at the first occurrence of the space byte keeps the longest space-free prefix. -/
theorem cut_at_space (s : GoString) :
    (match indexOf s [32] with
      | none => s
      | some m => s.take m) = s.takeWhile (fun b => b != 32) := by
  induction s with
  | nil => simp [indexOf, HasPrefix]
  | cons b t ih =>
    by_cases hb : b = 32
    · subst hb
      simp [indexOf, HasPrefix]
    · unfold indexOf
      simp only [HasPrefix, List.length_cons, List.length_nil, List.take_succ_cons, List.take_zero,
        List.cons.injEq, and_true, hb, and_false, decide_False, Bool.false_eq_true, if_false]
      rw [List.takeWhile_cons]
      simp only [bne_iff_ne, ne_eq, hb, not_false_eq_true, if_true]
      rw [← ih]
      cases indexOf t [32] <;> simp

theorem SplitN_two_ne_nil (s sep : GoString) : SplitN s sep 2 ≠ [] ∨ sep = [] := by
  by_cases hs : sep = []
  · exact Or.inr hs
  · left
    simp only [SplitN, genSplit, hs, if_false]
    simp only [show ((2 : Int) = 0) = False by simp, if_false]
    generalize ((if (if (2:Int) < 0 then (↑(Count s sep) + 1 : Int) else 2) > ↑s.length + 1
      then (↑s.length + 1 : Int) else if (2:Int) < 0 then ↑(Count s sep) + 1 else 2) - 1).toNat = k
    cases k with
    | zero => simp [genSplitLoop]
    | succ k => unfold genSplitLoop; split <;> simp

theorem SplitN_space_head (s : GoString) (hs : s ≠ []) :
    (SplitN s [32] 2).headD [] = s.takeWhile (fun b => b != 32) := by
  have hlen : 1 ≤ s.length := by
    cases s with
    | nil => exact absurd rfl hs
    | cons b t => simp
  have hk : ((if (2 : Int) > (s.length : Int) + 1 then (s.length : Int) + 1 else 2) - 1).toNat = 1 := by
    have : ¬ ((2 : Int) > (s.length : Int) + 1) := by omega
    simp [this]
  rw [← cut_at_space]
  simp only [SplitN, genSplit]
  simp only [show ((2 : Int) = 0) = False by simp, show ((2 : Int) < 0) = False by simp,
    show (([32] : GoString) = []) = False by simp, if_false]
  rw [hk]
  unfold genSplitLoop
  cases indexOf s [32] <;> simp


theorem extractCommand_slash (text : GoString)
    (h : HasPrefix (TrimSpace text) (goStr "/") = true) :
    extractCommand text = (TrimSpace text).takeWhile (fun b => b != 32) := by
  have hne : TrimSpace text ≠ [] := by
    rw [goStr_slash, hasPrefix_slash] at h
    obtain ⟨t, ht⟩ := h
    simp [ht]
  simp only [extractCommand, h, if_true]
  rw [goStr_space]
  exact SplitN_space_head _ hne

/-- Without a leading slash the result is the trimmed text cut to at most 20 bytes. -/
theorem extractCommand_no_slash (text : GoString)
    (h : HasPrefix (TrimSpace text) (goStr "/") = false) :
    extractCommand text = (TrimSpace text).take 20 := by
  simp only [extractCommand, h, Bool.false_eq_true, if_false]
  split_ifs with hl
  · rfl
  · exact (List.take_of_length_le (by omega)).symm

/-- No prefix without the space byte is longer than the cut at the first space byte. -/
theorem prefix_le_takeWhile (s p : GoString) (hp : p <+: s) (hnot : 32 ∉ p) :
    p.length ≤ (s.takeWhile (fun b => b != 32)).length := by
  induction s generalizing p with
  | nil =>
    have : p = [] := List.prefix_nil.1 hp
    simp [this]
  | cons b r ih =>
    cases p with
    | nil => simp
    | cons a q =>
      have hab : a = b ∧ q <+: r := by simpa [List.cons_prefix_cons] using hp
      obtain ⟨rfl, hq⟩ := hab
      have ha : a ≠ 32 := fun e => hnot (by simp [e])
      have hq2 : 32 ∉ q := fun e => hnot (by simp [e])
      have := ih q hq hq2
      simp [List.takeWhile_cons, ha]
      exact this

/-! ## Lemmas on the player list -/

theorem intercalate_nil_list (sep : GoString) : sep.intercalate [] = [] := by
  simp [List.intercalate]

theorem intercalate_single (sep x : GoString) : sep.intercalate [x] = x := by
  simp [List.intercalate]

theorem intercalate_cons_cons (sep x y : GoString) (l : List GoString) :
    sep.intercalate (x :: y :: l) = x ++ sep ++ sep.intercalate (y :: l) := by
  simp [List.intercalate, List.intersperse]

theorem playersLoop_eq {F : Type} (vb : Verbs F) (ps : List (Player F)) (i : Nat) (acc : GoString)
    (hi : i ≤ 9) :
    playersLoop vb ((i + ps.length : Nat) : Int) (i : Int) ps acc =
      acc ++ (goStr "\n\n").intercalate ((ps.take (10 - i)).map (playerEntry vb))
        ++ (if 10 ≤ i + ps.length then truncationNotice else []) := by
  induction ps generalizing i acc with
  | nil =>
    have : ¬ (10 ≤ i) := by omega
    simp [playersLoop, this, intercalate_nil_list]
  | cons p rest ih =>
    unfold playersLoop
    by_cases h9 : i = 9
    · subst h9
      have : 10 ≤ 9 + (rest.length + 1) := by omega
      simp [intercalate_single, this]
    · have hge : ¬ ((i : Int) ≥ 9) := by omega
      have hlt2 : (i : Int) < 9 := by omega
      simp only [hge, if_false, hlt2, and_true]
      have hcast : ((i + (p :: rest).length : Nat) : Int) = ((i + 1 + rest.length : Nat) : Int) := by
        simp; omega
      have hi1 : ((i : Int) + 1) = ((i + 1 : Nat) : Int) := by simp
      have hlen : i + (p :: rest).length = i + 1 + rest.length := by simp; omega
      rw [hcast, hi1, ih (i + 1) _ (by omega), hlen]
      have hsub : 10 - i = (10 - (i + 1)) + 1 := by omega
      rw [hsub, List.take_succ_cons]
      cases rest with
      | nil =>
        have : ¬ ((i : Int) < ((i + 1 + ([] : List (Player F)).length : Nat) : Int) - 1) := by simp
        simp only [this, if_false]
        simp [intercalate_nil_list, intercalate_single]
      | cons q r =>
        have : ((i : Int) < ((i + 1 + (q :: r).length : Nat) : Int) - 1) := by
          simp; omega
        have hk : 10 - (i + 1) = (10 - (i + 2)) + 1 := by omega
        simp only [this, if_true]
        rw [hk, List.take_succ_cons]
        simp [intercalate_cons_cons, List.append_assoc]

theorem playersList_eq {F : Type} (vb : Verbs F) (ps : List (Player F)) :
    playersList vb ps =
      playersHeader ++ (goStr "\n\n").intercalate ((ps.take 10).map (playerEntry vb))
        ++ (if 10 ≤ ps.length then truncationNotice else []) := by
  have := playersLoop_eq vb ps 0 playersHeader (by omega)
  simpa [playersList] using this

/-! ## The claims -/

/-- C1: one notice per cooldown window.  After a call for a pair that is admitted at `t0`,
take any later calls for that pair with strictly increasing clock readings `ts`.  Every
call among them whose reading is earlier than `t0 + 30 s` is suppressed: the first of them
(index 0) returns SuppressWithNotice and every later one returns SuppressSilently. -/
theorem one_notice_per_window (st : CooldownState) (jid cmd : GoString) (t0 : Int)
    (ts : List Int) (i : Nat)
    (hadm : (tooSoon st t0 jid cmd).1 = Admit)
    (hinc : List.Pairwise (· < ·) (t0 :: ts))
    (hi : i < ts.length)
    (hwin : ts[i] < t0 + 30 * Second) :
    (evalSeq jid cmd (tooSoon st t0 jid cmd).2 ts).1[i]? =
      some (if i = 0 then SuppressWithNotice else SuppressSilently) := by
  obtain ⟨h0, hn⟩ := fresh_window st t0 jid cmd hadm
  have hp : List.Pairwise (· < ·) ts := (List.pairwise_cons.1 hinc).2
  have hpre : ∀ t ∈ ts.take (i + 1), t < t0 + 30 * Second := by
    intro t ht
    obtain ⟨j, hj, rfl⟩ := List.mem_take_iff_getElem.1 ht
    have hj2 : j < i + 1 := lt_of_lt_of_le hj (min_le_left _ _)
    rcases Nat.lt_succ_iff_lt_or_eq.1 hj2 with hlt | heq
    · have := List.pairwise_iff_getElem.1 hp j i (by omega) hi hlt
      omega
    · subst heq; exact hwin
  obtain ⟨hd, -, -⟩ := evalSeq_in_window t0 jid cmd (ts.take (i + 1)) _ h0 hpre
  have hsplit : ts = ts.take (i + 1) ++ ts.drop (i + 1) := (List.take_append_drop _ _).symm
  rw [hsplit, evalSeq_append]
  have hlen : (ts.take (i + 1)).length = i + 1 := by simp; omega
  rw [List.getElem?_append_left (by rw [evalSeq_length, hlen]; omega), hd, hn]
  cases htk : ts.take (i + 1) with
  | nil => simp [htk] at hlen
  | cons a r =>
    have hr : r.length = i := by simpa [htk] using hlen
    cases i with
    | zero => simp [windowDecisions]
    | succ k => simp [windowDecisions, List.getElem?_replicate, hr]

/-- Instance of C1: admitted at 0, then calls after 1 s, 2 s and 40 s; the call after 2 s is
suppressed silently. -/
theorem one_notice_per_window_witness :
    (tooSoon initState 0 (goStr "31612345678@s.whatsapp.net") (goStr "/metrics")).1 = Admit
      ∧ List.Pairwise (· < ·) ((0 : Int) :: [1000000000, 2000000000, 40000000000])
      ∧ (evalSeq (goStr "31612345678@s.whatsapp.net") (goStr "/metrics")
          (tooSoon initState 0 (goStr "31612345678@s.whatsapp.net") (goStr "/metrics")).2
          [1000000000, 2000000000, 40000000000]).1[1]?
        = some (if 1 = 0 then SuppressWithNotice else SuppressSilently) :=
  ⟨by decide, by decide,
    one_notice_per_window initState (goStr "31612345678@s.whatsapp.net") (goStr "/metrics") 0
      [1000000000, 2000000000, 40000000000] 1 (by decide) (by decide) (by decide) (by decide)⟩

/-- C2: `tooSoon` returns Admit exactly when the pair has no prior record or
`now - lastUsedAt` is at least 30 seconds (a gap of exactly 30 seconds admits), and after an
Admit the pair has `lastUsedAt = now` and `notified = false`. -/
theorem tooSoon_admit_iff (st : CooldownState) (now : Int) (jid cmd : GoString) :
    ((tooSoon st now jid cmd).1 = Admit ↔
      (lastUsedAt st jid cmd = none ∨
        ∃ lastUsed, lastUsedAt st jid cmd = some lastUsed ∧ now - lastUsed ≥ 30 * Second))
    ∧ ((tooSoon st now jid cmd).1 = Admit →
      lastUsedAt (tooSoon st now jid cmd).2 jid cmd = some now
        ∧ notified (tooSoon st now jid cmd).2 jid cmd = false) := by
  refine ⟨?_, fresh_window st now jid cmd⟩
  rw [tooSoon_fst]
  cases hl : lastUsedAt st jid cmd with
  | none => simp [decide30]
  | some l =>
    by_cases hw : now - l < 30 * Second
    · cases hf : notified st jid cmd <;>
        simp [decide30, hw, Admit, SuppressWithNotice, SuppressSilently]
    · simp only [decide30, hw, if_false, true_iff]
      exact Or.inr ⟨l, rfl, not_lt.1 hw⟩

/-- Instance of C2: a second call exactly 30 seconds after the first is admitted and restarts
the window. -/
theorem tooSoon_admit_iff_witness :
    (tooSoon (tooSoon initState 0 (goStr "a") (goStr "/metrics")).2 30000000000
        (goStr "a") (goStr "/metrics")).1 = Admit
      ∧ lastUsedAt (tooSoon (tooSoon initState 0 (goStr "a") (goStr "/metrics")).2 30000000000
          (goStr "a") (goStr "/metrics")).2 (goStr "a") (goStr "/metrics") = some 30000000000
      ∧ notified (tooSoon (tooSoon initState 0 (goStr "a") (goStr "/metrics")).2 30000000000
          (goStr "a") (goStr "/metrics")).2 (goStr "a") (goStr "/metrics") = false :=
  ⟨by decide,
    (tooSoon_admit_iff (tooSoon initState 0 (goStr "a") (goStr "/metrics")).2 30000000000
      (goStr "a") (goStr "/metrics")).2 (by decide)⟩

/-- C3: the window is anchored to the last admitted send.  After an Admit at `t0` and any
number of calls for the pair at readings before `t0 + 30 s`, all those calls are suppressed
and `lastUsedAt` is still `t0`; a call at any `t1` of at least `t0 + 30 s` is admitted, sets
`lastUsedAt = t1` and resets the notice flag, and the next call inside the new window
returns SuppressWithNotice. -/
theorem window_anchored_to_admit (st : CooldownState) (jid cmd : GoString) (t0 : Int)
    (ts : List Int) (t1 t2 : Int)
    (hadm : (tooSoon st t0 jid cmd).1 = Admit)
    (hts : ∀ t ∈ ts, t < t0 + 30 * Second)
    (h1 : t1 ≥ t0 + 30 * Second)
    (h2 : t2 < t1 + 30 * Second) :
    (evalSeq jid cmd (tooSoon st t0 jid cmd).2 ts).1.all (fun d => d.1) = true
      ∧ lastUsedAt (evalSeq jid cmd (tooSoon st t0 jid cmd).2 ts).2 jid cmd = some t0
      ∧ (tooSoon (evalSeq jid cmd (tooSoon st t0 jid cmd).2 ts).2 t1 jid cmd).1 = Admit
      ∧ lastUsedAt (tooSoon (evalSeq jid cmd (tooSoon st t0 jid cmd).2 ts).2 t1 jid cmd).2 jid cmd
          = some t1
      ∧ notified (tooSoon (evalSeq jid cmd (tooSoon st t0 jid cmd).2 ts).2 t1 jid cmd).2 jid cmd
          = false
      ∧ (tooSoon (tooSoon (evalSeq jid cmd (tooSoon st t0 jid cmd).2 ts).2 t1 jid cmd).2
          t2 jid cmd).1 = SuppressWithNotice := by
  obtain ⟨h0, hn⟩ := fresh_window st t0 jid cmd hadm
  obtain ⟨hd, hl, -⟩ := evalSeq_in_window t0 jid cmd ts _ h0 hts
  have hadm1 : (tooSoon (evalSeq jid cmd (tooSoon st t0 jid cmd).2 ts).2 t1 jid cmd).1 = Admit := by
    rw [tooSoon_fst, hl]
    have hw : ¬ (t1 - t0 < 30 * Second) := by omega
    simp [decide30, hw]
  obtain ⟨hl1, hn1⟩ := fresh_window _ t1 jid cmd hadm1
  refine ⟨?_, hl, hadm1, hl1, hn1, ?_⟩
  · rw [hd, hn]
    cases ts with
    | nil => simp [windowDecisions]
    | cons a r => simp [windowDecisions, SuppressWithNotice, SuppressSilently]
  · have := (tooSoon_in_window _ t1 t2 jid cmd hl1 h2).1
    rw [this, hn1]
    simp

/-- Instance of C3: admitted at 0, suppressed after 5 s and just before 30 s, admitted again at
30 s, and the call after 31 s gets the notice of the new window. -/
theorem window_anchored_to_admit_witness :
    (tooSoon initState 0 (goStr "a") (goStr "/players")).1 = Admit
      ∧ (∀ t ∈ ([5000000000, 29999999999] : List Int), t < 0 + 30 * Second)
      ∧ (30000000000 : Int) ≥ 0 + 30 * Second
      ∧ (31000000000 : Int) < 30000000000 + 30 * Second
      ∧ ((evalSeq (goStr "a") (goStr "/players")
            (tooSoon initState 0 (goStr "a") (goStr "/players")).2
            [5000000000, 29999999999]).1.all (fun d => d.1) = true
        ∧ lastUsedAt (evalSeq (goStr "a") (goStr "/players")
            (tooSoon initState 0 (goStr "a") (goStr "/players")).2
            [5000000000, 29999999999]).2 (goStr "a") (goStr "/players") = some 0
        ∧ (tooSoon (evalSeq (goStr "a") (goStr "/players")
            (tooSoon initState 0 (goStr "a") (goStr "/players")).2
            [5000000000, 29999999999]).2 30000000000 (goStr "a") (goStr "/players")).1 = Admit
        ∧ lastUsedAt (tooSoon (evalSeq (goStr "a") (goStr "/players")
            (tooSoon initState 0 (goStr "a") (goStr "/players")).2
            [5000000000, 29999999999]).2 30000000000 (goStr "a") (goStr "/players")).2
            (goStr "a") (goStr "/players") = some 30000000000
        ∧ notified (tooSoon (evalSeq (goStr "a") (goStr "/players")
            (tooSoon initState 0 (goStr "a") (goStr "/players")).2
            [5000000000, 29999999999]).2 30000000000 (goStr "a") (goStr "/players")).2
            (goStr "a") (goStr "/players") = false
        ∧ (tooSoon (tooSoon (evalSeq (goStr "a") (goStr "/players")
            (tooSoon initState 0 (goStr "a") (goStr "/players")).2
            [5000000000, 29999999999]).2 30000000000 (goStr "a") (goStr "/players")).2
            31000000000 (goStr "a") (goStr "/players")).1 = SuppressWithNotice) :=
  ⟨by decide, by decide, by decide, by decide,
    window_anchored_to_admit initState (goStr "a") (goStr "/players") 0
      [5000000000, 29999999999] 30000000000 31000000000
      (by decide) (by decide) (by decide) (by decide)⟩

/-- C4: distinct (sender, command) pairs do not interfere.  A call for `(jid, cmd)` leaves
the record, the stored notice entry and the notice flag of every other pair `(j, c)` as they
were, and two states that agree on the record and the notice flag of `(jid, cmd)` give the
same decision at the same clock reading. -/
theorem pairs_do_not_interfere (st st2 : CooldownState) (now : Int) (jid cmd j c : GoString) :
    ((j, c) ≠ (jid, cmd) →
      lastUsedAt (tooSoon st now jid cmd).2 j c = lastUsedAt st j c
        ∧ notifiedEntry (tooSoon st now jid cmd).2 j c = notifiedEntry st j c
        ∧ notified (tooSoon st now jid cmd).2 j c = notified st j c)
    ∧ (lastUsedAt st jid cmd = lastUsedAt st2 jid cmd ∧ notified st jid cmd = notified st2 jid cmd →
      (tooSoon st now jid cmd).1 = (tooSoon st2 now jid cmd).1) := by
  constructor
  · intro hne
    have h : ¬ (j = jid ∧ c = cmd) := fun ⟨a, b⟩ => hne (by rw [a, b])
    have hn := notifiedEntry_after_other st now jid cmd j c h
    refine ⟨?_, hn, ?_⟩
    · rw [lastUsedAt_after]
      have h2 : ¬ (j = jid ∧ c = cmd ∧ (tooSoon st now jid cmd).1 = Admit) :=
        fun ⟨a, b, _⟩ => h ⟨a, b⟩
      simp [h2]
    · simp [notified, hn]
  · rintro ⟨hl, hn⟩
    rw [tooSoon_fst, tooSoon_fst, hl, hn]

/-- Instance of C4: a call for `/metrics` leaves the record of `/players` of the same sender
alone, and two different states without a `/metrics` record decide alike. -/
theorem pairs_do_not_interfere_witness :
    ((goStr "a", goStr "/players") ≠ (goStr "a", goStr "/metrics")
      ∧ lastUsedAt (tooSoon (tooSoon initState 0 (goStr "a") (goStr "/players")).2 5
          (goStr "a") (goStr "/metrics")).2 (goStr "a") (goStr "/players")
        = lastUsedAt (tooSoon initState 0 (goStr "a") (goStr "/players")).2
            (goStr "a") (goStr "/players"))
    ∧ ((lastUsedAt (tooSoon initState 0 (goStr "a") (goStr "/players")).2
            (goStr "a") (goStr "/metrics")
          = lastUsedAt (tooSoon initState 7 (goStr "b") (goStr "/x")).2
              (goStr "a") (goStr "/metrics")
        ∧ notified (tooSoon initState 0 (goStr "a") (goStr "/players")).2
            (goStr "a") (goStr "/metrics")
          = notified (tooSoon initState 7 (goStr "b") (goStr "/x")).2
              (goStr "a") (goStr "/metrics"))
      ∧ (tooSoon (tooSoon initState 0 (goStr "a") (goStr "/players")).2 5
            (goStr "a") (goStr "/metrics")).1
          = (tooSoon (tooSoon initState 7 (goStr "b") (goStr "/x")).2 5
            (goStr "a") (goStr "/metrics")).1) :=
  ⟨⟨by decide,
      ((pairs_do_not_interfere (tooSoon initState 0 (goStr "a") (goStr "/players")).2
        (tooSoon initState 7 (goStr "b") (goStr "/x")).2 5 (goStr "a") (goStr "/metrics")
        (goStr "a") (goStr "/players")).1 (by decide)).1⟩,
    ⟨by decide,
      (pairs_do_not_interfere (tooSoon initState 0 (goStr "a") (goStr "/players")).2
        (tooSoon initState 7 (goStr "b") (goStr "/x")).2 5 (goStr "a") (goStr "/metrics")
        (goStr "a") (goStr "/players")).2 (by decide)⟩⟩

/-- C6: the read, decide and write of `tooSoon` are not atomic.  From any state in which
the pair was last admitted at `t0` and has not been notified, two calls inside the window
that overlap (both read before either writes) both return SuppressWithNotice, while the
same two calls one after the other return SuppressWithNotice and then SuppressSilently. -/
theorem overlapping_calls_both_notify (st : CooldownState) (jid cmd : GoString)
    (t0 now1 now2 : Int)
    (h0 : lastUsedAt st jid cmd = some t0)
    (hn : notified st jid cmd = false)
    (h1 : now1 < t0 + 30 * Second)
    (h2 : now2 < t0 + 30 * Second) :
    (overlapped st now1 now2 jid cmd).1 = SuppressWithNotice
      ∧ (overlapped st now1 now2 jid cmd).2.1 = SuppressWithNotice
      ∧ (tooSoon st now1 jid cmd).1 = SuppressWithNotice
      ∧ (tooSoon (tooSoon st now1 jid cmd).2 now2 jid cmd).1 = SuppressSilently := by
  have hw1 : now1 - t0 < 30 * Second := by omega
  have hw2 : now2 - t0 < 30 * Second := by omega
  have hs1 : (readStep st jid cmd).1 = ⟨some t0, false⟩ := by
    rw [readStep_snapshot, h0, hn]
  have hs2 : (readStep (readStep st jid cmd).2 jid cmd).1 = ⟨some t0, false⟩ := by
    rw [readStep_snapshot, readStep_lastUsedAt, readStep_notified, h0, hn]
  obtain ⟨hd, hl, hf⟩ := tooSoon_in_window st t0 now1 jid cmd h0 h1
  obtain ⟨hd2, -, -⟩ := tooSoon_in_window _ t0 now2 jid cmd hl h2
  refine ⟨?_, ?_, ?_, ?_⟩
  · simp only [overlapped]
    rw [writeStep_fst, hs1]
    simp [decide30, hw1]
  · simp only [overlapped]
    rw [writeStep_fst, hs2]
    simp [decide30, hw2]
  · rw [hd, hn]; simp
  · rw [hd2, hf]; simp

/-- Instance of C6: admitted at 0, then two overlapping calls after 1 s and 2 s both give the
notice. -/
theorem overlapping_calls_both_notify_witness :
    lastUsedAt (tooSoon initState 0 (goStr "a") (goStr "/metrics")).2
        (goStr "a") (goStr "/metrics") = some 0
      ∧ notified (tooSoon initState 0 (goStr "a") (goStr "/metrics")).2
        (goStr "a") (goStr "/metrics") = false
      ∧ (1000000000 : Int) < 0 + 30 * Second
      ∧ (2000000000 : Int) < 0 + 30 * Second
      ∧ ((overlapped (tooSoon initState 0 (goStr "a") (goStr "/metrics")).2
            1000000000 2000000000 (goStr "a") (goStr "/metrics")).1 = SuppressWithNotice
        ∧ (overlapped (tooSoon initState 0 (goStr "a") (goStr "/metrics")).2
            1000000000 2000000000 (goStr "a") (goStr "/metrics")).2.1 = SuppressWithNotice
        ∧ (tooSoon (tooSoon initState 0 (goStr "a") (goStr "/metrics")).2 1000000000
            (goStr "a") (goStr "/metrics")).1 = SuppressWithNotice
        ∧ (tooSoon (tooSoon (tooSoon initState 0 (goStr "a") (goStr "/metrics")).2 1000000000
            (goStr "a") (goStr "/metrics")).2 2000000000
            (goStr "a") (goStr "/metrics")).1 = SuppressSilently) :=
  ⟨by decide, by decide, by decide, by decide,
    overlapping_calls_both_notify (tooSoon initState 0 (goStr "a") (goStr "/metrics")).2
      (goStr "a") (goStr "/metrics") 0 1000000000 2000000000
      (by decide) (by decide) (by decide) (by decide)⟩

/-- C7: when the global limiter denies the attempt, `sendText` hands no message to the
client (neither the reply nor the cooldown notice) and returns the two maps unchanged; when
it grants a token the maps are those left by the one `tooSoon` call. -/
theorem limiter_denial_is_silent (now : Int) (v : Event) (text : GoString) (st : CooldownState) :
    (sendText false now v text st).1 = st
      ∧ (sendText false now v text st).2.sent = []
      ∧ (sendText true now v text st).1 = (tooSoon st now v.Sender (extractCommand text)).2 := by
  refine ⟨rfl, rfl, ?_⟩
  simp only [sendText]
  split_ifs <;> simp_all

/-- C5: the key under which `sendText` tracks a request is taken from the reply text.  A
`/metrics` request whose status query fails leaves no record under `/metrics`, the key that
`extractCommand` gives for the inbound text, but one under the first 20 bytes of the error
reply; the error reply of `/players` has the same key, so a `/players` request of the same
sender one second later is answered with the cooldown notice. -/
theorem cooldown_key_from_reply :
    extractCommand (goStr "/metrics") = goStr "/metrics"
      ∧ lastUsedAt (handleMessage (failingWorld 0) (requestOf "/metrics") initState).1
          (goStr "31612345678@s.whatsapp.net") (goStr "/metrics") = none
      ∧ lastUsedAt (handleMessage (failingWorld 0) (requestOf "/metrics") initState).1
          (goStr "31612345678@s.whatsapp.net")
          (extractCommand (goStr "❌ Fout bij ophalen van serverstatus.")) = some 0
      ∧ extractCommand (goStr "❌ Fout bij ophalen van serverstatus.")
          = extractCommand (goStr "❌ Fout bij ophalen van spelerslijst.")
      ∧ (handleMessage (failingWorld 1000000000) (requestOf "/players")
          (handleMessage (failingWorld 0) (requestOf "/metrics") initState).1).2.sent
          = [(goStr "31612345678@s.whatsapp.net",
              goStr "⏱️ Rustig aan! Je moet even wachten tot je dit commando weer kan gebruiken.")] := by
  decide

/-- C8: `extractCommand` cuts the command at the first space byte only.  The trimmed text
`/players<TAB>1 2` starts with a slash, yet the result is `/players<TAB>1`, which is not the
command `/players` and contains a white space character. -/
theorem extractCommand_keeps_tab :
    HasPrefix (TrimSpace (goStr "/players\t1 2")) (goStr "/") = true
      ∧ extractCommand (goStr "/players\t1 2") = goStr "/players\t1"
      ∧ extractCommand (goStr "/players\t1 2") ≠ goStr "/players"
      ∧ ¬ (∀ b ∈ extractCommand (goStr "/players\t1 2"), IsSpace b = false) := by
  decide

/-- What the code computes on a leading slash: the trimmed text cut at its first space byte
(U+0020).  The result starts with a slash, contains no space byte, is a prefix of the
trimmed text, and no space-free prefix `p` of the trimmed text is longer. -/
theorem extractCommand_first_token (text p : GoString)
    (h : HasPrefix (TrimSpace text) (goStr "/") = true)
    (hp : p <+: TrimSpace text) (hnot : 32 ∉ p) :
    extractCommand text = (TrimSpace text).takeWhile (fun b => b != 32)
      ∧ HasPrefix (extractCommand text) (goStr "/") = true
      ∧ 32 ∉ extractCommand text
      ∧ extractCommand text <+: TrimSpace text
      ∧ p.length ≤ (extractCommand text).length := by
  have he := extractCommand_slash text h
  rw [he]
  rw [goStr_slash, hasPrefix_slash] at h ⊢
  obtain ⟨t, ht⟩ := h
  refine ⟨rfl, ?_, ?_, ?_, ?_⟩
  · exact ⟨t.takeWhile (fun b => b != 32), by simp [ht, List.takeWhile_cons]⟩
  · intro hmem
    have := List.mem_takeWhile_imp hmem
    simp at this
  · exact List.takeWhile_prefix _
  · exact prefix_le_takeWhile (TrimSpace text) p hp hnot

/-- Instance of the cut at the first space byte: `/players extra args` between blanks gives
`/players`, and the space-free prefix `/play` is not longer. -/
theorem extractCommand_first_token_witness :
    HasPrefix (TrimSpace (goStr "  /players extra args ")) (goStr "/") = true
      ∧ goStr "/play" <+: TrimSpace (goStr "  /players extra args ")
      ∧ 32 ∉ goStr "/play"
      ∧ (extractCommand (goStr "  /players extra args ")
          = (TrimSpace (goStr "  /players extra args ")).takeWhile (fun b => b != 32)
        ∧ HasPrefix (extractCommand (goStr "  /players extra args ")) (goStr "/") = true
        ∧ 32 ∉ extractCommand (goStr "  /players extra args ")
        ∧ extractCommand (goStr "  /players extra args ")
            <+: TrimSpace (goStr "  /players extra args ")
        ∧ (goStr "/play").length ≤ (extractCommand (goStr "  /players extra args ")).length) :=
  ⟨by decide, by decide, by decide,
    extractCommand_first_token (goStr "  /players extra args ") (goStr "/play")
      (by decide) (by decide) (by decide)⟩

/-- C9: `extractCommand` truncates to 20 bytes, not to 20 characters.  The error reply of
`/metrics` has 36 characters and is cut to its first 18 characters (20 bytes) instead of its
first 20; a text of 11 characters in 21 bytes does not start with a slash, is returned cut
although it has fewer than 20 characters, and the cut falls inside its last character. -/
theorem extractCommand_cuts_bytes :
    RuneCountInString (TrimSpace (goStr "❌ Fout bij ophalen van serverstatus.")) = 36
      ∧ extractCommand (goStr "❌ Fout bij ophalen van serverstatus.") = goStr "❌ Fout bij ophalen"
      ∧ extractCommand (goStr "❌ Fout bij ophalen van serverstatus.") ≠ goStr "❌ Fout bij ophalen va"
      ∧ RuneCountInString (goStr "❌ Fout bij ophalen v") = 20
      ∧ extractCommand (goStr "❌ Fout bij ophalen van serverstatus.") ≠ goStr "❌ Fout bij ophalen v"
      ∧ RuneCountInString (goStr "❌ Fout bij ophalen") = 18
      ∧ TrimSpace (goStr "aéééééééééé") = goStr "aéééééééééé"
      ∧ HasPrefix (TrimSpace (goStr "aéééééééééé")) (goStr "/") = false
      ∧ RuneCountInString (goStr "aéééééééééé") = 11
      ∧ extractCommand (goStr "aéééééééééé") ≠ goStr "aéééééééééé"
      ∧ extractCommand (goStr "aéééééééééé") = goStr "aééééééééé" ++ [0xC3]
      ∧ DecodeLastRuneInString (extractCommand (goStr "aéééééééééé")) = (RuneError, 1) := by
  decide

/-- C10: with exactly ten players the reply lists all ten entries and still ends with the
truncation notice, although no player is left out. -/
theorem notice_at_exactly_ten {F : Type} (vb : Verbs F)
    (p0 p1 p2 p3 p4 p5 p6 p7 p8 p9 : Player F) :
    playersList vb [p0, p1, p2, p3, p4, p5, p6, p7, p8, p9] =
      playersHeader
        ++ (goStr "\n\n").intercalate
            ([p0, p1, p2, p3, p4, p5, p6, p7, p8, p9].map (playerEntry vb))
        ++ truncationNotice := by
  rw [playersList_eq]
  simp

end Overseerbot
